import Mathlib

set_option autoImplicit false

/-
Verification of the UF typescript database layer.

The sql access layer consists of an abstract base class UFDatabase (named
parameter rewriting, object based insert and update, unique code loop) and a
mysql implementation UFMysqlDatabase (execute with reconnect and retry, field
access, transactions), together with the helpers UFText.append,
UFText.generateCode and UFMath.randomInteger.

JavaScript strings are modelled as lists of characters, records (plain
objects) as association lists in property insertion order, and asynchronous
methods that may throw as functions into Except.  Database and random number
effects are passed in explicitly (mock connections, draw streams).
-/

namespace UF

/-- A JavaScript string, modelled as a list of characters. -/
abbrev Str := List Char

/-- Turns a Lean string literal into the character list model. -/
def chars (s : String) : Str := s.data

/-- Values stored in records and parameter bags (database cell values). -/
inductive DBValue where
  | vInt : Int → DBValue
  | vStr : Str → DBValue
  | vNull : DBValue
  deriving DecidableEq

/-- A record / row: named fields in property insertion order. -/
abbrev Record := List (Str × DBValue)

/-- The word character class of the JavaScript regex used by
processSqlParameters: ASCII letters, digits and underscore. -/
def isWordChar (c : Char) : Bool :=
  c.isAlpha || c.isDigit || c = '_'

theorem length_dropWhile_le {α : Type} (p : α → Bool) (l : List α) :
    (l.dropWhile p).length ≤ l.length := by
  induction l with
  | nil => simp
  | cons c rest ih =>
    rw [List.dropWhile_cons]
    split
    · exact Nat.le_succ_of_le ih
    · simp

/-- Embeds UFDatabase.processSqlParameters (source part 005, lines 339 to 356).
The code runs matchAll with the global regex "colon followed by one or more
word characters" over the sql, which yields the non overlapping matches in
left to right order, each match taking the maximal run of word characters
after its colon; the loop copies the text between matches verbatim and
replaces each match by the text the callback returns for the pair of the
placeholder name (without the colon) and the bag entry for that name (absent
entries read as undefined, here none). -/
def processSqlParameters (bag : Str → Option DBValue)
    (cb : Str → Option DBValue → Str) : Str → Str
  | [] => []
  | c :: rest =>
    if c = ':' then
      if rest.takeWhile isWordChar = [] then
        c :: processSqlParameters bag cb rest
      else
        cb (rest.takeWhile isWordChar) (bag (rest.takeWhile isWordChar)) ++
          processSqlParameters bag cb (rest.dropWhile isWordChar)
    else c :: processSqlParameters bag cb rest
termination_by l => l.length
decreasing_by
  all_goals simp [List.length_cons]
  all_goals exact Nat.lt_succ_of_le (length_dropWhile_le _ _)

/-- Instrumented version of processSqlParameters that additionally records,
in order, the placeholder names the callback is invoked with. -/
def processSqlTrace (bag : Str → Option DBValue)
    (cb : Str → Option DBValue → Str) : Str → Str × List Str
  | [] => ([], [])
  | c :: rest =>
    if c = ':' then
      if rest.takeWhile isWordChar = [] then
        (c :: (processSqlTrace bag cb rest).1, (processSqlTrace bag cb rest).2)
      else
        (cb (rest.takeWhile isWordChar) (bag (rest.takeWhile isWordChar)) ++
            (processSqlTrace bag cb (rest.dropWhile isWordChar)).1,
          rest.takeWhile isWordChar ::
            (processSqlTrace bag cb (rest.dropWhile isWordChar)).2)
    else (c :: (processSqlTrace bag cb rest).1, (processSqlTrace bag cb rest).2)
termination_by l => l.length
decreasing_by
  all_goals simp [List.length_cons]
  all_goals exact Nat.lt_succ_of_le (length_dropWhile_le _ _)

/-- One piece of a sql template: literal text, or a named placeholder
(stored without its leading colon). -/
inductive SqlSegment where
  | lit : Str → SqlSegment
  | param : Str → SqlSegment
  deriving DecidableEq

/-- Decomposition of a sql template into literal text and placeholder
occurrences, found by the same left to right maximal scan as the regex. -/
def parseSqlTemplate : Str → List SqlSegment
  | [] => []
  | c :: rest =>
    if c = ':' then
      if rest.takeWhile isWordChar = [] then
        SqlSegment.lit [c] :: parseSqlTemplate rest
      else
        SqlSegment.param (rest.takeWhile isWordChar) ::
          parseSqlTemplate (rest.dropWhile isWordChar)
    else SqlSegment.lit [c] :: parseSqlTemplate rest
termination_by l => l.length
decreasing_by
  all_goals simp [List.length_cons]
  all_goals exact Nat.lt_succ_of_le (length_dropWhile_le _ _)

/-- The source text of one segment. -/
def segText : SqlSegment → Str
  | SqlSegment.lit l => l
  | SqlSegment.param w => ':' :: w

/-- The output text of one segment: literal text is kept byte for byte,
a placeholder becomes whatever the callback returns for it. -/
def segSubst (bag : Str → Option DBValue)
    (cb : Str → Option DBValue → Str) : SqlSegment → Str
  | SqlSegment.lit l => l
  | SqlSegment.param w => cb w (bag w)

/-- Concatenating the source text of all segments. -/
def rebuildTemplate (segs : List SqlSegment) : Str :=
  segs.foldr (fun s acc => segText s ++ acc) []

/-- Concatenating the output text of all segments. -/
def substTemplate (bag : Str → Option DBValue)
    (cb : Str → Option DBValue → Str) (segs : List SqlSegment) : Str :=
  segs.foldr (fun s acc => segSubst bag cb s ++ acc) []

/-- The placeholder names of a template, in source order. -/
def paramNames (segs : List SqlSegment) : List Str :=
  segs.filterMap fun s =>
    match s with
    | SqlSegment.lit _ => none
    | SqlSegment.param w => some w

theorem rebuildTemplate_cons (s : SqlSegment) (segs : List SqlSegment) :
    rebuildTemplate (s :: segs) = segText s ++ rebuildTemplate segs := rfl

theorem substTemplate_cons (bag : Str → Option DBValue)
    (cb : Str → Option DBValue → Str) (s : SqlSegment) (segs : List SqlSegment) :
    substTemplate bag cb (s :: segs) = segSubst bag cb s ++ substTemplate bag cb segs := rfl

theorem paramNames_cons_lit (t : Str) (segs : List SqlSegment) :
    paramNames (SqlSegment.lit t :: segs) = paramNames segs := rfl

theorem paramNames_cons_param (w : Str) (segs : List SqlSegment) :
    paramNames (SqlSegment.param w :: segs) = w :: paramNames segs := rfl

/-- Reassembling the parsed segments gives back the template: the scan loses
no text, and everything outside placeholders is kept verbatim. -/
theorem parseSqlTemplate_rebuild (l : Str) :
    rebuildTemplate (parseSqlTemplate l) = l := by
  induction l using parseSqlTemplate.induct with
  | case1 =>
    rw [parseSqlTemplate]
    rfl
  | case2 rest hw ih =>
    rw [parseSqlTemplate, if_pos rfl, if_pos hw, rebuildTemplate_cons, ih]
    rfl
  | case3 rest hw ih =>
    rw [parseSqlTemplate, if_pos rfl, if_neg hw, rebuildTemplate_cons, ih]
    show ':' :: (List.takeWhile isWordChar rest ++ List.dropWhile isWordChar rest) =
      ':' :: rest
    rw [List.takeWhile_append_dropWhile]
  | case4 c rest hc ih =>
    rw [parseSqlTemplate, if_neg hc, rebuildTemplate_cons, ih]
    rfl

/-- The rewriter output and its callback trace are exactly the substituted
segments and the placeholder names of the parsed template. -/
theorem processSqlTrace_spec (bag : Str → Option DBValue)
    (cb : Str → Option DBValue → Str) (l : Str) :
    processSqlTrace bag cb l =
      (substTemplate bag cb (parseSqlTemplate l),
       paramNames (parseSqlTemplate l)) := by
  induction l using parseSqlTemplate.induct with
  | case1 =>
    rw [processSqlTrace, parseSqlTemplate]
    rfl
  | case2 rest hw ih =>
    rw [processSqlTrace, if_pos rfl, if_pos hw, ih,
      parseSqlTemplate, if_pos rfl, if_pos hw,
      substTemplate_cons, paramNames_cons_lit]
    rfl
  | case3 rest hw ih =>
    rw [processSqlTrace, if_pos rfl, if_neg hw, ih,
      parseSqlTemplate, if_pos rfl, if_neg hw,
      substTemplate_cons, paramNames_cons_param]
    rfl
  | case4 c rest hc ih =>
    rw [processSqlTrace, if_neg hc, ih, parseSqlTemplate, if_neg hc,
      substTemplate_cons, paramNames_cons_lit]
    rfl

/-- The plain rewriter computes the first component of the instrumented one. -/
theorem processSqlParameters_eq_trace (bag : Str → Option DBValue)
    (cb : Str → Option DBValue → Str) (l : Str) :
    processSqlParameters bag cb l = (processSqlTrace bag cb l).1 := by
  induction l using parseSqlTemplate.induct with
  | case1 =>
    rw [processSqlParameters, processSqlTrace]
  | case2 rest hw ih =>
    rw [processSqlParameters, if_pos rfl, if_pos hw, ih,
      processSqlTrace, if_pos rfl, if_pos hw]
  | case3 rest hw ih =>
    rw [processSqlParameters, if_pos rfl, if_neg hw, ih,
      processSqlTrace, if_pos rfl, if_neg hw]
  | case4 c rest hc ih =>
    rw [processSqlParameters, if_neg hc, ih, processSqlTrace, if_neg hc]

/-- Every placeholder name found by the scan is nonempty and consists of
word characters only. -/
theorem paramNames_wordlike (l : Str) :
    ∀ w ∈ paramNames (parseSqlTemplate l), w ≠ [] ∧ w.all isWordChar = true := by
  induction l using parseSqlTemplate.induct with
  | case1 =>
    intro w hmem
    simp [parseSqlTemplate, paramNames] at hmem
  | case2 rest hw ih =>
    rw [parseSqlTemplate, if_pos rfl, if_pos hw, paramNames_cons_lit]
    exact ih
  | case3 rest hw ih =>
    rw [parseSqlTemplate, if_pos rfl, if_neg hw, paramNames_cons_param]
    intro w hmem
    rcases List.mem_cons.1 hmem with hmem | hmem
    · subst hmem
      refine ⟨hw, List.all_eq_true.2 fun x hx => List.mem_takeWhile_imp hx⟩
    · exact ih w hmem
  | case4 c rest hc ih =>
    rw [parseSqlTemplate, if_neg hc, paramNames_cons_lit]
    exact ih

/-- A template without placeholders substitutes to itself. -/
theorem substTemplate_of_no_params (bag : Str → Option DBValue)
    (cb : Str → Option DBValue → Str) (segs : List SqlSegment)
    (h : paramNames segs = []) :
    substTemplate bag cb segs = rebuildTemplate segs := by
  induction segs with
  | nil => rfl
  | cons s rest ih =>
    cases s with
    | lit t =>
      rw [substTemplate_cons, rebuildTemplate_cons, ih (by rwa [paramNames_cons_lit] at h)]
      rfl
    | param w =>
      rw [paramNames_cons_param] at h
      exact absurd h (List.cons_ne_nil w (paramNames rest))

end UF

namespace UF

/-- Embeds UFText.append (source part 000, lines 46 to 54): appends a value
to a source with a separator, returning the other side unchanged when either
side is empty. -/
def append (aSource aValue aSeparator : Str) : Str :=
  if aSource.length ≤ 0 then aValue
  else if aValue.length ≤ 0 then aSource
  else aSource ++ aSeparator ++ aValue

/-- JavaScript property assignment on a record: replaces the value of an
existing key in place (keeping enumeration order), appends a missing key at
the end. -/
def setField : Record → Str → DBValue → Record
  | [], k, v => [(k, v)]
  | kv :: rest, k, v => if kv.1 = k then (k, v) :: rest else kv :: setField rest k v

/-- JavaScript property read on a record (undefined is none). -/
def lookupField : Record → Str → Option DBValue
  | [], _ => none
  | kv :: rest, k => if kv.1 = k then some kv.2 else lookupField rest k

/-- One step of the Object.entries forEach loop of UFDatabase.insertObject
(source part 005, lines 106 to 112): accumulates the columns string, the
values string and the parameter bag, skipping the primary key field. -/
def insertObjectStep (aPrimaryKey : Str) (acc : Str × Str × Record)
    (kv : Str × DBValue) : Str × Str × Record :=
  if kv.1 ≠ aPrimaryKey then
    (append acc.1 kv.1 (chars ","),
     append acc.2.1 (':' :: kv.1) (chars ","),
     acc.2.2 ++ [kv])
  else acc

/-- The columns string, values string and parameter bag built by
UFDatabase.insertObject before executing the insert statement. -/
def insertObjectParts (aData : Record) (aPrimaryKey : Str) : Str × Str × Record :=
  aData.foldl (insertObjectStep aPrimaryKey) ([], [], [])

/-- The insert statement built by UFDatabase.insertObject (source part 005,
line 113). -/
def insertObjectSql (aTable : Str) (aData : Record) (aPrimaryKey : Str) : Str :=
  chars "insert into " ++ aTable ++ chars " (" ++
    (insertObjectParts aData aPrimaryKey).1 ++ chars ") values (" ++
    (insertObjectParts aData aPrimaryKey).2.1 ++ chars ")"

/-- Embeds UFDatabase.insertObject (source part 005, lines 102 to 118).  The
abstract insert method is passed in explicitly as a function from statement
and parameter bag to the generated id or a thrown error.  A thrown error
skips the rest of the method, so the write back happens only after a
successful insert, and only when the returned id is strictly positive. -/
def insertObject (insert : Str → Record → Except Str Int) (aTable : Str)
    (aData : Record) (aPrimaryKey : Str) : Except Str Record :=
  match insert (insertObjectSql aTable aData aPrimaryKey)
      (insertObjectParts aData aPrimaryKey).2.2 with
  | Except.error e => Except.error e
  | Except.ok id =>
    Except.ok (if id > 0 then setField aData aPrimaryKey (DBValue.vInt id) else aData)

/-- One step of the Object.entries forEach loop of UFDatabase.updateObject
(source part 005, lines 217 to 222): accumulates the set clauses and the
parameter bag, skipping the primary key field. -/
def updateObjectStep (aPrimaryKey : Str) (acc : Str × Record)
    (kv : Str × DBValue) : Str × Record :=
  if kv.1 ≠ aPrimaryKey then
    (append acc.1 (kv.1 ++ chars "=" ++ chars ":" ++ kv.1) (chars ","),
     acc.2 ++ [kv])
  else acc

/-- Embeds UFDatabase.updateObject (source part 005, lines 212 to 228),
returning the list of (statement, parameter bag) pairs handed to the
abstract update method: the source executes exactly one statement when the
set clause list is nonempty and none otherwise. -/
def updateObject (aTable : Str) (aPrimaryValue : DBValue) (aData : Record)
    (aPrimaryKey : Str) : List (Str × Record) :=
  if (aData.foldl (updateObjectStep aPrimaryKey) ([], [])).1.length > 0 then
    [(chars "update " ++ aTable ++ chars " set " ++
        (aData.foldl (updateObjectStep aPrimaryKey) ([], [])).1 ++
        chars " where " ++ aPrimaryKey ++ chars " = :" ++ aPrimaryKey,
      setField (aData.foldl (updateObjectStep aPrimaryKey) ([], [])).2
        aPrimaryKey aPrimaryValue)]
  else []

/-- Embeds UFMysqlDatabase.field (source part 004, lines 229 to 239): the
first column of the first row when rows are present and the first row has a
column, the supplied default otherwise (undefined is modelled as none). -/
def field (rows : List Record) (aDefault : Option DBValue) : Option DBValue :=
  match rows with
  | row :: _ =>
    match row with
    | kv :: _ => some kv.2
    | [] => aDefault
  | [] => aDefault

/-- Embeds UFMysqlDatabase.fieldOrFail (source part 004, lines 271 to 277):
calls field with default undefined and throws when the result is
undefined. -/
def fieldOrFail (rows : List Record) : Except Str DBValue :=
  match field rows none with
  | none => Except.error (chars "no field for query")
  | some v => Except.ok v

end UF

namespace UF

/-- A mock of the mysql connection as seen by UFMysqlDatabase.execute: the
outcome of the first statement execution, of closing the connection, of
creating a fresh connection from the stored parameters, and of the statement
execution on the fresh connection. -/
structure MockConn (ρ : Type) where
  attempt1 : Except Str ρ
  closeRes : Except Str Unit
  reconnectRes : Except Str Unit
  attempt2 : Except Str ρ

/-- What a run of UFMysqlDatabase.execute did: its returned or thrown value,
and how many times it closed the connection, attempted a reconnect and
attempted the statement. -/
structure ExecOutcome (ρ : Type) where
  result : Except Str ρ
  closes : Nat
  reconnects : Nat
  attempts : Nat

/-- Embeds UFMysqlDatabase.execute (source part 004, lines 425 to 466).
With no connection the method throws.  Otherwise the statement is attempted;
on success the rows are returned.  On failure the error is only logged, the
connection is closed (a failure to close is only logged as well, so closeRes
does not influence the control flow), and a fresh connection is created from
the stored parameters: if that throws, the reconnect error is rethrown at
once; otherwise the statement is attempted exactly once more, returning its
rows or rethrowing its error. -/
def executeModel {ρ : Type} (connected : Bool) (m : MockConn ρ) : ExecOutcome ρ :=
  if connected = false then
    ⟨Except.error (chars "There is no connection to the database."), 0, 0, 0⟩
  else
    match m.attempt1 with
    | Except.ok rows => ⟨Except.ok rows, 0, 0, 1⟩
    | Except.error _ =>
      match m.reconnectRes with
      | Except.error e => ⟨Except.error e, 1, 1, 1⟩
      | Except.ok _ =>
        match m.attempt2 with
        | Except.ok rows => ⟨Except.ok rows, 1, 1, 2⟩
        | Except.error e => ⟨Except.error e, 1, 1, 2⟩

/-- What a run of UFMysqlDatabase.transaction did: its returned or thrown
value and how many commit and rollback calls were issued. -/
structure TxOutcome where
  result : Except Str Unit
  commits : Nat
  rollbacks : Nat

/-- Embeds UFMysqlDatabase.transaction (source part 004, lines 369 to 384).
With no connection the method throws.  beginTransaction runs outside the try
block, so its error propagates directly.  Then the callback runs inside try:
on normal return commit is called (a commit error is caught by the same
catch); on any caught error rollback is awaited and then the caught error is
rethrown — but when rollback itself throws, its error escapes the catch
block first, so the rollback error replaces the caught one. -/
def transactionModel (connected : Bool) (beginRes commitRes rollbackRes : Except Str Unit)
    (cb : Except Str Unit) : TxOutcome :=
  if connected = false then
    ⟨Except.error (chars "There is no connection to the database."), 0, 0⟩
  else
    match beginRes with
    | Except.error e => ⟨Except.error e, 0, 0⟩
    | Except.ok _ =>
      match cb with
      | Except.ok _ =>
        match commitRes with
        | Except.ok _ => ⟨Except.ok (), 1, 0⟩
        | Except.error e =>
          match rollbackRes with
          | Except.ok _ => ⟨Except.error e, 1, 1⟩
          | Except.error e2 => ⟨Except.error e2, 1, 1⟩
      | Except.error e =>
        match rollbackRes with
        | Except.ok _ => ⟨Except.error e, 0, 1⟩
        | Except.error e2 => ⟨Except.error e2, 0, 1⟩

/-- Embeds the rejection loop inside UFText.generateCode (source part 000,
lines 87 to 94): draw random integers until one is outside the banned set of
char codes 0, 24, 1, 47 (the glyphs 0, O, 1, l).  Random draws are passed in
as a list of naturals and randomInteger(0, n) is modelled as the next draw
modulo n + 1; none models an exhausted draw list. -/
def pickCharCode (forceDigit : Bool) : List Nat → Option (Nat × List Nat)
  | [] => none
  | d :: rest =>
    if (if forceDigit then d % 10 else d % 62) ≠ 0 ∧
        (if forceDigit then d % 10 else d % 62) ≠ 24 ∧
        (if forceDigit then d % 10 else d % 62) ≠ 1 ∧
        (if forceDigit then d % 10 else d % 62) ≠ 47 then
      some (if forceDigit then d % 10 else d % 62, rest)
    else pickCharCode forceDigit rest

/-- Embeds the character loop of UFText.generateCode (source part 000, lines
79 to 108): numberCount starts at 1, a digit is forced whenever numberCount
is greater than 2, an accepted code below 10 appends the digit and resets
numberCount to 0, an other accepted code appends the upper or lower case
letter and increments numberCount. -/
def generateCodeLoop : Nat → Nat → List Nat → Option Str
  | 0, _, _ => some []
  | cnt + 1, numberCount, draws =>
    match pickCharCode (decide (numberCount > 2)) draws with
    | none => none
    | some cr =>
      if cr.1 < 10 then
        (generateCodeLoop cnt 0 cr.2).map fun s => Char.ofNat (cr.1 + 48) :: s
      else if cr.1 < 36 then
        (generateCodeLoop cnt (numberCount + 1) cr.2).map fun s =>
          Char.ofNat (cr.1 + 65 - 10) :: s
      else
        (generateCodeLoop cnt (numberCount + 1) cr.2).map fun s =>
          Char.ofNat (cr.1 + 97 - 10 - 26) :: s

/-- Embeds UFText.generateCode (source part 000, lines 79 to 108): the loop
above starting with numberCount equal to 1. -/
def generateCode (aLength : Nat) (draws : List Nat) : Option Str :=
  generateCodeLoop aLength 1 draws

/-- The every-third-char validator of the claim: the string contains no run
of three consecutive non digit characters. -/
def noThreeLetterRun : Str → Bool
  | a :: b :: c :: rest =>
    (a.isDigit || b.isDigit || c.isDigit) && noThreeLetterRun (b :: c :: rest)
  | _ => true

/-- Embeds UFDatabase.getUniqueCode (source part 005, lines 259 to 268): an
unbounded while loop generating a candidate code and returning it as soon as
the count query for it yields zero.  The candidate generator is threaded
explicitly through a state (in the source, the global random number
generator), the count query is the check function (in the source, fieldAs on
select count), and the unbounded loop is given fuel, none modelling a run
that has not returned within the fuel. -/
def getUniqueCode {σ : Type} (gen : σ → Str × σ) (check : Str → Nat) :
    Nat → σ → Option Str
  | 0, _ => none
  | fuel + 1, s =>
    if check (gen s).1 = 0 then some (gen s).1
    else getUniqueCode gen check fuel (gen s).2

/-- The successive candidate codes drawn from the generator. -/
def genCandidates {σ : Type} (gen : σ → Str × σ) : Nat → σ → List Str
  | 0, _ => []
  | n + 1, s => (gen s).1 :: genCandidates gen n (gen s).2

/-- The comma separated listing of a list of names (the specification side
reading of a generated column list). -/
def commaSeparated : List Str → Str
  | [] => []
  | [k] => k
  | k :: rest => k ++ ',' :: commaSeparated rest

/-- The non primary key field names of a record, in declaration order. -/
def nonPkKeys (aData : Record) (aPrimaryKey : Str) : List Str :=
  (aData.filter fun kv => decide (kv.1 ≠ aPrimaryKey)).map Prod.fst

end UF

namespace UF

theorem append_nil_left (v sep : Str) : append [] v sep = v := rfl

theorem append_of_ne (s v sep : Str) (hs : s ≠ []) (hv : v ≠ []) :
    append s v sep = s ++ sep ++ v := by
  rw [append, if_neg, if_neg]
  · simp [Nat.le_zero, List.length_eq_zero, hv]
  · simp [Nat.le_zero, List.length_eq_zero, hs]

/-- The text a comma separated listing appends after its first name. -/
def commaTail : List Str → Str
  | [] => []
  | k :: rest => (',' :: k) ++ commaTail rest

theorem commaSeparated_cons (ks : List Str) (k : Str) :
    commaSeparated (k :: ks) = k ++ commaTail ks := by
  induction ks generalizing k with
  | nil => simp [commaSeparated, commaTail]
  | cons k2 rest ih =>
    show k ++ ',' :: commaSeparated (k2 :: rest) = k ++ commaTail (k2 :: rest)
    rw [ih k2]
    rfl

theorem foldl_append_comma_ne (ks : List Str) (s : Str) (hs : s ≠ [])
    (hks : ∀ k ∈ ks, k ≠ []) :
    ks.foldl (fun a k => append a k (chars ",")) s = s ++ commaTail ks := by
  induction ks generalizing s with
  | nil => simp [commaTail]
  | cons k rest ih =>
    rw [List.foldl_cons, append_of_ne s k _ hs (hks k (List.mem_cons_self k rest))]
    rw [ih _ (by simp [hs]) (fun k2 h2 => hks k2 (List.mem_cons_of_mem _ h2))]
    show s ++ chars "," ++ k ++ commaTail rest = s ++ ((',' :: k) ++ commaTail rest)
    simp [chars, List.append_assoc]

theorem foldl_append_comma (ks : List Str) (hks : ∀ k ∈ ks, k ≠ []) :
    ks.foldl (fun a k => append a k (chars ",")) [] = commaSeparated ks := by
  cases ks with
  | nil => rfl
  | cons k rest =>
    rw [List.foldl_cons, append_nil_left,
      foldl_append_comma_ne rest k (hks k (List.mem_cons_self k rest))
        (fun k2 h2 => hks k2 (List.mem_cons_of_mem _ h2)),
      commaSeparated_cons]

theorem insertObjectParts_foldl_fst (aData : Record) (aPrimaryKey : Str) :
    ∀ acc : Str × Str × Record,
    (aData.foldl (insertObjectStep aPrimaryKey) acc).1 =
      (nonPkKeys aData aPrimaryKey).foldl (fun a k => append a k (chars ",")) acc.1 := by
  induction aData with
  | nil => intro acc; rfl
  | cons kv rest ih =>
    intro acc
    rw [List.foldl_cons]
    by_cases h : kv.1 = aPrimaryKey
    · have hstep : insertObjectStep aPrimaryKey acc kv = acc := by
        simp [insertObjectStep, h]
      rw [hstep, ih acc]
      simp [nonPkKeys, List.filter_cons, h]
    · have hstep : insertObjectStep aPrimaryKey acc kv =
          (append acc.1 kv.1 (chars ","),
           append acc.2.1 (':' :: kv.1) (chars ","),
           acc.2.2 ++ [kv]) := by
        simp [insertObjectStep, h]
      rw [hstep, ih]
      simp [nonPkKeys, List.filter_cons, h]

theorem nonPkKeys_ne_nil (aData : Record) (aPrimaryKey : Str)
    (h : ∀ kv ∈ aData, kv.1 ≠ []) :
    ∀ k ∈ nonPkKeys aData aPrimaryKey, k ≠ [] := by
  intro k hk
  obtain ⟨kv, hmem, hfst⟩ := List.mem_map.1 hk
  exact hfst ▸ h kv (List.mem_filter.1 hmem).1

theorem pk_not_mem_nonPkKeys (aData : Record) (aPrimaryKey : Str) :
    aPrimaryKey ∉ nonPkKeys aData aPrimaryKey := by
  intro hk
  obtain ⟨kv, hmem, hfst⟩ := List.mem_map.1 hk
  have := (List.mem_filter.1 hmem).2
  rw [hfst] at this
  simp at this

theorem updateObject_foldl_all_pk (aData : Record) (aPrimaryKey : Str)
    (h : ∀ kv ∈ aData, kv.1 = aPrimaryKey) :
    aData.foldl (updateObjectStep aPrimaryKey) ([], []) = ([], []) := by
  induction aData with
  | nil => rfl
  | cons kv rest ih =>
    rw [List.foldl_cons]
    have hstep : updateObjectStep aPrimaryKey ([], []) kv = ([], []) := by
      simp [updateObjectStep, h kv (List.mem_cons_self kv rest)]
    rw [hstep]
    exact ih (fun kv2 h2 => h kv2 (List.mem_cons_of_mem _ h2))

theorem lookupField_setField_same (r : Record) (k : Str) (v : DBValue) :
    lookupField (setField r k v) k = some v := by
  induction r with
  | nil => simp [setField, lookupField]
  | cons kv rest ih =>
    by_cases h : kv.1 = k
    · simp [setField, h, lookupField]
    · simp [setField, h, lookupField, ih]

theorem lookupField_setField_other (r : Record) (k k2 : Str) (v : DBValue)
    (h : k2 ≠ k) :
    lookupField (setField r k v) k2 = lookupField r k2 := by
  induction r with
  | nil => simp [setField, lookupField, Ne.symm h]
  | cons kv rest ih =>
    by_cases hk : kv.1 = k
    · subst hk
      simp [setField, lookupField, Ne.symm h]
    · simp [setField, hk, lookupField, ih]

end UF

namespace UF

/-- Claim C1: for UFMysqlDatabase.execute on a live connection, when the
first execution attempt fails the adapter closes the connection once,
reconnects once from the stored parameters and attempts the statement
exactly once more: a failure of the second attempt propagates with no third
attempt; a failure of the reconnect itself propagates immediately with the
statement not retried; and when the second attempt succeeds its result is
returned after exactly one close and one reconnect. -/
theorem execute_reconnect_retry_claim {ρ : Type} (m : MockConn ρ)
    (e1 e2 er : Str) (rows : ρ) :
    (m.attempt1 = Except.error e1 → m.reconnectRes = Except.ok () →
      m.attempt2 = Except.error e2 →
      executeModel true m = ⟨Except.error e2, 1, 1, 2⟩) ∧
    (m.attempt1 = Except.error e1 → m.reconnectRes = Except.error er →
      executeModel true m = ⟨Except.error er, 1, 1, 1⟩) ∧
    (m.attempt1 = Except.error e1 → m.reconnectRes = Except.ok () →
      m.attempt2 = Except.ok rows →
      executeModel true m = ⟨Except.ok rows, 1, 1, 2⟩) := by
  refine ⟨?_, ?_, ?_⟩
  · intro h1 h2 h3
    simp [executeModel, h1, h2, h3]
  · intro h1 h2
    simp [executeModel, h1, h2]
  · intro h1 h2 h3
    simp [executeModel, h1, h2, h3]

/-- Concrete mock for the C1 witness: the first attempt fails, the close and
the reconnect succeed, the retried attempt succeeds. -/
def mockRetryOk : MockConn Nat :=
  ⟨Except.error (chars "connection lost"), Except.ok (), Except.ok (), Except.ok 7⟩

theorem execute_reconnect_retry_claim_witness :
    executeModel true mockRetryOk = ⟨Except.ok 7, 1, 1, 2⟩ :=
  (execute_reconnect_retry_claim mockRetryOk (chars "connection lost")
    (chars "x") (chars "x") 7).2.2 rfl rfl rfl

/-- Claim C5 as amended: UFMysqlDatabase.transaction begins a transaction,
invokes the callback, and on normal return with a successful commit performs
exactly one commit and zero rollbacks; on a callback failure it performs a
rollback and re-raises the original failure unchanged when the rollback
succeeds; when the rollback itself fails, the rollback error propagates to
the caller in place of the original one. -/
theorem transaction_claim (commitRes rollbackRes cb : Except Str Unit) (e e2 : Str) :
    (cb = Except.ok () → commitRes = Except.ok () →
      transactionModel true (Except.ok ()) commitRes rollbackRes cb =
        ⟨Except.ok (), 1, 0⟩) ∧
    (cb = Except.error e → rollbackRes = Except.ok () →
      transactionModel true (Except.ok ()) commitRes rollbackRes cb =
        ⟨Except.error e, 0, 1⟩) ∧
    (cb = Except.error e → rollbackRes = Except.error e2 →
      transactionModel true (Except.ok ()) commitRes rollbackRes cb =
        ⟨Except.error e2, 0, 1⟩) := by
  refine ⟨?_, ?_, ?_⟩
  · intro h1 h2
    simp [transactionModel, h1, h2]
  · intro h1 h2
    simp [transactionModel, h1, h2]
  · intro h1 h2
    simp [transactionModel, h1, h2]

theorem transaction_claim_witness :
    transactionModel true (Except.ok ()) (Except.ok ()) (Except.ok ())
      (Except.error (chars "boom")) = ⟨Except.error (chars "boom"), 0, 1⟩ :=
  (transaction_claim (Except.ok ()) (Except.ok ()) (Except.error (chars "boom"))
    (chars "boom") (chars "x")).2.1 rfl rfl

/-- Counterexample to claim C5 as stated: when the callback throws and the
rollback also throws, the rollback error reaches the caller, not the
original callback error, because the rethrow of the caught error is never
executed once rollback has thrown inside the catch block. -/
theorem transaction_rollback_error_counterexample :
    (transactionModel true (Except.ok ()) (Except.ok ())
        (Except.error (chars "rollback failed"))
        (Except.error (chars "callback failed"))).result =
      Except.error (chars "rollback failed") ∧
    Except.error (chars "rollback failed") ≠
      (Except.error (chars "callback failed") : Except Str Unit) := by
  refine ⟨rfl, ?_⟩
  intro h
  have := Except.error.inj h
  simp [chars] at this

/-- Claim C7: UFDatabase.updateObject with a record all of whose fields are
the primary key (in particular zero non key fields) executes no statement at
all and returns normally as a no-op. -/
theorem updateObject_noop_claim (aTable : Str) (aPrimaryValue : DBValue)
    (aData : Record) (aPrimaryKey : Str)
    (h : ∀ kv ∈ aData, kv.1 = aPrimaryKey) :
    updateObject aTable aPrimaryValue aData aPrimaryKey = [] := by
  rw [updateObject, updateObject_foldl_all_pk aData aPrimaryKey h]
  simp

theorem updateObject_noop_claim_witness :
    updateObject (chars "client") (DBValue.vInt 7)
      [(chars "id", DBValue.vInt 5)] (chars "id") = [] :=
  updateObject_noop_claim (chars "client") (DBValue.vInt 7)
    [(chars "id", DBValue.vInt 5)] (chars "id") (by decide)

/-- Claim C9: UFMysqlDatabase.field returns the value of the first column of
the first row when the result set is nonempty (and the row has a column),
and returns the caller supplied default when the result set is empty; the
fieldOrFail variant throws instead of returning an absent value when no
field can be found. -/
theorem field_first_claim (k : Str) (v : DBValue) (rowRest : Record)
    (rest : List Record) (d : Option DBValue) :
    field (((k, v) :: rowRest) :: rest) d = some v ∧
    field [] d = d ∧
    fieldOrFail (((k, v) :: rowRest) :: rest) = Except.ok v ∧
    fieldOrFail [] = Except.error (chars "no field for query") :=
  ⟨rfl, rfl, rfl, rfl⟩

/-- Claim C10: when the insert statement succeeds but yields a generated id
that is not strictly positive, UFDatabase.insertObject returns normally and
the record is returned completely unmodified. -/
theorem insertObject_nonpositive_claim (insert : Str → Record → Except Str Int)
    (aTable : Str) (aData : Record) (aPrimaryKey : Str) (id : Int)
    (hins : insert (insertObjectSql aTable aData aPrimaryKey)
        (insertObjectParts aData aPrimaryKey).2.2 = Except.ok id)
    (hid : id ≤ 0) :
    insertObject insert aTable aData aPrimaryKey = Except.ok aData := by
  have hneg : ¬id > 0 := by omega
  simp [insertObject, hins, hneg]

/-- A mock insert whose generated id is 0 (as mysql reports for a table
without an auto increment column). -/
def zeroIdInsert : Str → Record → Except Str Int := fun _ _ => Except.ok 0

/-- A mock insert whose generated id is negative. -/
def negIdInsert : Str → Record → Except Str Int := fun _ _ => Except.ok (-3)

/-- The record of the spec example: name a, id 0. -/
def recNameId : Record :=
  [(chars "name", DBValue.vStr (chars "a")), (chars "id", DBValue.vInt 0)]

theorem insertObject_nonpositive_claim_witness :
    insertObject negIdInsert (chars "t") recNameId (chars "id") =
      Except.ok recNameId :=
  insertObject_nonpositive_claim negIdInsert (chars "t") recNameId (chars "id")
    (-3) rfl (by decide)

/-- Claim C4 (the code contradicts it): UFText.generateCode can emit three
consecutive non numeric characters.  With the draw stream 5, 12, 12, 12 the
generated length 4 candidate is the string 5CCC, whose last three characters
are letters, so the every-third-char-is-numeric validator rejects it.  The
cause: numberCount starts at 1 but is reset to 0 after each digit, so after
any digit a run of three letters is accepted, contrary to the source comment
"make sure every 3rd char is a number". -/
theorem generateCode_letter_run_bug :
    generateCode 4 [5, 12, 12, 12] = some (chars "5CCC") ∧
    noThreeLetterRun (chars "5CCC") = false := by
  constructor
  · decide
  · decide

end UF

namespace UF

/-- Claim C2: for every sql template and parameter bag, the rewriter
decomposes the template into literal text and placeholder occurrences (colon
followed by one or more word characters, maximal match, left to right, as
parseSqlTemplate finds them); reassembling the decomposition gives back the
input, so all text outside placeholders is byte identical; the output
replaces each occurrence by the callback result for it; the callback is
invoked once per occurrence in left to right order (the instrumented trace
is exactly the placeholder name list); every matched name is nonempty and
made of word characters; and a template with zero placeholder occurrences
(in particular the empty template) is returned unchanged with zero callback
invocations. -/
theorem processSqlParameters_claim (bag : Str → Option DBValue)
    (cb : Str → Option DBValue → Str) (sql : Str) :
    rebuildTemplate (parseSqlTemplate sql) = sql ∧
    processSqlParameters bag cb sql = substTemplate bag cb (parseSqlTemplate sql) ∧
    processSqlTrace bag cb sql =
      (processSqlParameters bag cb sql, paramNames (parseSqlTemplate sql)) ∧
    (∀ w ∈ paramNames (parseSqlTemplate sql), w ≠ [] ∧ w.all isWordChar = true) ∧
    (paramNames (parseSqlTemplate sql) = [] →
      processSqlParameters bag cb sql = sql ∧ (processSqlTrace bag cb sql).2 = []) := by
  have htr := processSqlTrace_spec bag cb sql
  have hfst := processSqlParameters_eq_trace bag cb sql
  refine ⟨parseSqlTemplate_rebuild sql, ?_, ?_, paramNames_wordlike sql, ?_⟩
  · rw [hfst, htr]
  · rw [htr, hfst, htr]
  · intro h
    constructor
    · rw [hfst, htr]
      show substTemplate bag cb (parseSqlTemplate sql) = sql
      rw [substTemplate_of_no_params bag cb _ h, parseSqlTemplate_rebuild]
    · rw [htr]
      exact h

/-- A parameter bag with no entries. -/
def emptyBag : Str → Option DBValue := fun _ => none

/-- A callback replacing every placeholder by a question mark. -/
def questionCb : Str → Option DBValue → Str := fun _ _ => ['?']

theorem processSqlParameters_claim_witness :
    processSqlParameters emptyBag questionCb (chars "select 1") =
      chars "select 1" ∧
    (processSqlTrace emptyBag questionCb (chars "select 1")).2 = [] :=
  (processSqlParameters_claim emptyBag questionCb (chars "select 1")).2.2.2.2
    (by simp +decide [parseSqlTemplate, chars, paramNames])

/-- Whether an optional record value holds a strictly positive integer. -/
def isStrictlyPositiveId : Option DBValue → Bool
  | some (DBValue.vInt n) => decide (n > 0)
  | _ => false

/-- Claim C3 as amended: whenever UFDatabase.insertObject returns
successfully from an insert whose generated id is strictly positive, the
primary key field of the record holds that strictly positive id and all
other fields are unchanged; and when the insert statement fails, the error
propagates and the record is left unmodified (the write back line is never
reached). -/
theorem insertObject_writeback_claim (insert : Str → Record → Except Str Int)
    (aTable : Str) (aData : Record) (aPrimaryKey : Str) (id : Int) (e : Str) :
    (insert (insertObjectSql aTable aData aPrimaryKey)
        (insertObjectParts aData aPrimaryKey).2.2 = Except.ok id → id > 0 →
      insertObject insert aTable aData aPrimaryKey =
        Except.ok (setField aData aPrimaryKey (DBValue.vInt id)) ∧
      isStrictlyPositiveId
        (lookupField (setField aData aPrimaryKey (DBValue.vInt id)) aPrimaryKey) =
        true ∧
      (∀ k2, k2 ≠ aPrimaryKey →
        lookupField (setField aData aPrimaryKey (DBValue.vInt id)) k2 =
          lookupField aData k2)) ∧
    (insert (insertObjectSql aTable aData aPrimaryKey)
        (insertObjectParts aData aPrimaryKey).2.2 = Except.error e →
      insertObject insert aTable aData aPrimaryKey = Except.error e) := by
  constructor
  · intro hins hid
    refine ⟨?_, ?_, fun k2 h2 =>
      lookupField_setField_other aData aPrimaryKey k2 (DBValue.vInt id) h2⟩
    · simp [insertObject, hins, hid]
    · rw [lookupField_setField_same]
      simp [isStrictlyPositiveId, hid]
  · intro hins
    simp [insertObject, hins]

/-- A mock insert whose generated id is 42. -/
def insert42 : Str → Record → Except Str Int := fun _ _ => Except.ok 42

theorem insertObject_writeback_claim_witness :
    insertObject insert42 (chars "t") recNameId (chars "id") =
      Except.ok (setField recNameId (chars "id") (DBValue.vInt 42)) :=
  ((insertObject_writeback_claim insert42 (chars "t") recNameId (chars "id")
    42 (chars "x")).1 rfl (by decide)).1

/-- Counterexample to claim C3 as stated: a mock insert that succeeds with
generated id 0 makes insertObject return successfully with the record
unmodified, so its primary key field still holds 0, which is not a strictly
positive integer. -/
theorem insertObject_nonpositive_counterexample :
    insertObject zeroIdInsert (chars "t") recNameId (chars "id") =
      Except.ok recNameId ∧
    isStrictlyPositiveId (lookupField recNameId (chars "id")) = false :=
  ⟨rfl, rfl⟩

/-- Claim C6 as amended: for every record whose field names are nonempty,
the column list built by insertObject is the comma separated listing of
exactly the non primary key field names in declaration order; the primary
key is never among those names; and for the record with fields name a and
id 0 with primary key id, the generated column list is exactly name, and a
successful call against a mock insert returning generated id 42 yields the
record with id 42. -/
theorem insertObject_columns_claim (aData : Record) (aPrimaryKey : Str) :
    ((∀ kv ∈ aData, kv.1 ≠ []) →
      (insertObjectParts aData aPrimaryKey).1 =
        commaSeparated (nonPkKeys aData aPrimaryKey)) ∧
    aPrimaryKey ∉ nonPkKeys aData aPrimaryKey ∧
    (insertObjectParts recNameId (chars "id")).1 = chars "name" ∧
    insertObject insert42 (chars "t") recNameId (chars "id") =
      Except.ok [(chars "name", DBValue.vStr (chars "a")),
        (chars "id", DBValue.vInt 42)] := by
  refine ⟨?_, pk_not_mem_nonPkKeys aData aPrimaryKey, rfl, rfl⟩
  intro h
  exact (insertObjectParts_foldl_fst aData aPrimaryKey ([], [], [])).trans
    (foldl_append_comma _ (nonPkKeys_ne_nil aData aPrimaryKey h))

theorem insertObject_columns_claim_witness :
    (insertObjectParts recNameId (chars "id")).1 =
      commaSeparated (nonPkKeys recNameId (chars "id")) :=
  (insertObject_columns_claim recNameId (chars "id")).1 (by decide)

/-- A record holding a field with the empty name next to an ordinary field. -/
def recEmptyName : Record :=
  [([], DBValue.vStr (chars "x")), (chars "name", DBValue.vStr (chars "y")),
   (chars "id", DBValue.vInt 0)]

/-- Counterexample to claim C6 as stated: a field named by the empty string
is a non primary key field of the record, but UFText.append skips empty
values, so the built column list is just name instead of the enumeration of
both non key fields (whose comma separated listing starts with a comma). -/
theorem insertObject_empty_column_counterexample :
    (insertObjectParts recEmptyName (chars "id")).1 = chars "name" ∧
    nonPkKeys recEmptyName (chars "id") = [[], chars "name"] ∧
    (insertObjectParts recEmptyName (chars "id")).1 ≠
      commaSeparated (nonPkKeys recEmptyName (chars "id")) := by
  refine ⟨rfl, rfl, ?_⟩
  decide

/-- Claim C8: UFDatabase.getUniqueCode returns the first generated candidate
whose count query yields zero (stated as an equation with find? over the
candidate stream), and in particular when the check rejects the first two
candidates and accepts the third, the third candidate is returned. -/
theorem getUniqueCode_claim {σ : Type} (gen : σ → Str × σ) (check : Str → Nat)
    (fuel : Nat) (s : σ) (c1 c2 c3 : Str) (rest : List Str) :
    getUniqueCode gen check fuel s =
      (genCandidates gen fuel s).find? (fun c => decide (check c = 0)) ∧
    (genCandidates gen fuel s = c1 :: c2 :: c3 :: rest →
      check c1 ≠ 0 → check c2 ≠ 0 → check c3 = 0 →
      getUniqueCode gen check fuel s = some c3) := by
  have hfind : ∀ (n : Nat) (st : σ), getUniqueCode gen check n st =
      (genCandidates gen n st).find? (fun c => decide (check c = 0)) := by
    intro n
    induction n with
    | zero => intro st; rfl
    | succ n ih =>
      intro st
      rw [getUniqueCode, genCandidates]
      by_cases h : check (gen st).1 = 0
      · simp [List.find?, h]
      · simp [List.find?, h, ih]
  refine ⟨hfind fuel s, ?_⟩
  intro hc hc1 hc2 hc3
  rw [hfind fuel s, hc]
  simp [List.find?, hc1, hc2, hc3]

/-- A candidate generator producing aa, bb, cc, cc, ... -/
def codeGenEx : Nat → Str × Nat := fun n =>
  (if n = 0 then chars "aa" else if n = 1 then chars "bb" else chars "cc", n + 1)

/-- A count query rejecting everything except cc. -/
def codeCheckEx : Str → Nat := fun c => if c = chars "cc" then 0 else 1

theorem getUniqueCode_claim_witness :
    getUniqueCode codeGenEx codeCheckEx 3 0 = some (chars "cc") :=
  (getUniqueCode_claim codeGenEx codeCheckEx 3 0 (chars "aa") (chars "bb")
    (chars "cc") []).2 (by decide) (by decide) (by decide) (by decide)

end UF
